import Mathlib

/-
Verification of the OpenTSDB time-series access facade (datastore/opentsdb.js).

The JavaScript module keeps a module-level socket `opentsdb`, a StatsD client,
and exposes connect / addTimeSeries / getLatestTimeSeries / getTimeSeriesRange /
getTimeSeriesRangeList.  The definitions below are a shallow embedding of those
functions: JavaScript objects become association lists, HTTP responses become an
inductive response type, callback completions become explicit result values, and
counters incremented on a StatsD client become natural-number fields of a result
record.
-/

namespace Opentsdb

/-- A point as produced by responseToLines: timestamp in seconds since the
epoch (number obtained from parseInt on the dps key), and the metric value. -/
structure MetricPoint where
  timestamp : Int
  value : Int
deriving DecidableEq, Repr

/-- Numeric value of a decimal digit character; JS digit code points are 48-57. -/
def digitVal (c : Char) : Nat := c.toNat - 48

/-- Value of a list of decimal digit characters read as a base-10 numeral,
written positionally to ease induction. -/
def natOfDigits : List Char → Nat
  | [] => 0
  | c :: cs => digitVal c * 10 ^ cs.length + natOfDigits cs

/-- Longest leading run of decimal digits, as consumed by JS parseInt. -/
def leadDigits : List Char → List Char
  | [] => []
  | c :: cs => if c.isDigit then c :: leadDigits cs else []

/-- JS parseInt(s) with radix 10 on a trimmed numeral: an optional leading minus
sign followed by the longest digit run.  parseInt returns NaN when no digit is
found; that case is modelled as 0 and is unreachable for OpenTSDB dps keys,
which are plain decimal timestamps. -/
def jsParseInt (s : String) : Int :=
  match s.data with
  | [] => 0
  | c :: cs =>
    if c = '-' then -(natOfDigits (leadDigits cs) : Int)
    else (natOfDigits (leadDigits (c :: cs)) : Int)

/-- JS member read dps[key] on an object modelled as an association list; a
missing key yields JS undefined, modelled as 0 (unreachable here because every
key looked up comes from the object itself). -/
def jsLookup : List (String × Int) → String → Int
  | [], _ => 0
  | p :: rest, k => if p.1 = k then p.2 else jsLookup rest k

/-- Lexicographic less-or-equal on character lists, comparing characters by
code point.  This is the order underlying the default JS Array sort comparator,
which compares strings by code unit; the two coincide on the ASCII dps keys
this module sorts. -/
def lexLeb : List Char → List Char → Bool
  | [], _ => true
  | _ :: _, [] => false
  | a :: as, b :: bs =>
    if a < b then true
    else if b < a then false
    else lexLeb as bs

/-- String order used by the default JS sort. -/
def jsLe (a b : String) : Prop := lexLeb a.data b.data = true

instance : DecidableRel jsLe := fun a b => instDecidableEqBool (lexLeb a.data b.data) true

instance : IsTotal String jsLe := by
  constructor
  intro a b
  show lexLeb a.data b.data = true ∨ lexLeb b.data a.data = true
  generalize a.data = l
  generalize b.data = m
  induction l generalizing m with
  | nil => left; rfl
  | cons x xs ih =>
    cases m with
    | nil => right; rfl
    | cons y ys =>
      by_cases hxy : x < y
      · left; simp [lexLeb, hxy]
      · by_cases hyx : y < x
        · right; simp [lexLeb, hyx]
        · have hx : x = y := le_antisymm (not_lt.mp hyx) (not_lt.mp hxy)
          subst hx
          rcases ih ys with h | h
          · left; simp [lexLeb, h]
          · right; simp [lexLeb, h]

instance : IsTrans String jsLe := by
  constructor
  have key : ∀ (l m n : List Char), lexLeb l m = true → lexLeb m n = true →
      lexLeb l n = true := by
    intro l
    induction l with
    | nil => intro m n _ _; rfl
    | cons x xs ih =>
      intro m n hlm hmn
      cases m with
      | nil => simp [lexLeb] at hlm
      | cons y ys =>
        cases n with
        | nil => simp [lexLeb] at hmn
        | cons z zs =>
          by_cases hxy : x < y
          · by_cases hyz : y < z
            · have hxz : x < z := lt_trans hxy hyz
              simp [lexLeb, hxz]
            · by_cases hzy : z < y
              · simp [lexLeb, hyz, hzy] at hmn
              · have hyzeq : y = z := le_antisymm (not_lt.mp hzy) (not_lt.mp hyz)
                subst hyzeq
                simp [lexLeb, hxy]
          · by_cases hyx : y < x
            · simp [lexLeb, hxy, hyx] at hlm
            · have hxyeq : x = y := le_antisymm (not_lt.mp hyx) (not_lt.mp hxy)
              subst hxyeq
              simp only [lexLeb, lt_irrefl, if_false] at hlm
              by_cases hyz : x < z
              · simp [lexLeb, hyz]
              · by_cases hzy : z < x
                · simp [lexLeb, hyz, hzy] at hmn
                · have hxzeq : x = z := le_antisymm (not_lt.mp hzy) (not_lt.mp hyz)
                  subst hxzeq
                  simp only [lexLeb, lt_irrefl, if_false] at hmn ⊢
                  exact ih ys zs hlm hmn
  exact fun a b c hab hbc => key a.data b.data c.data hab hbc

/-- Embedding of responseToLines(dps): Object.keys(dps).sort() sorts the keys as
strings (JS default comparator: code-unit order), then each key is parsed with
parseInt and paired with its value.  The sort is lexicographic, not numeric. -/
def responseToLines (dps : List (String × Int)) : List MetricPoint :=
  (List.insertionSort jsLe (dps.map Prod.fst)).map fun key =>
    { timestamp := jsParseInt key, value := jsLookup dps key }

/-- Does pat occur at the head of l? -/
def matchesAt : List Char → List Char → Bool
  | _, [] => true
  | [], _ :: _ => false
  | c :: cs, p :: ps => c == p && matchesAt cs ps

/-- Does pat occur anywhere in l?  Models the JS test
s.indexOf(pat) greater than -1. -/
def containsSub : List Char → List Char → Bool
  | [], pat => pat.isEmpty
  | c :: rest, pat => matchesAt (c :: rest) pat || containsSub rest pat

/-- Substring test on strings, as used for error-message sniffing. -/
def strContainsSub (s pat : String) : Bool := containsSub s.data pat.data

/-- The marker queryRange and getLatestTimeSeries look for inside a 500
response body. -/
def noSuchNameMarker : String := "No such name for "

/-- The JS guard res.body and res.body.error and res.body.error.message and
message.indexOf marker: the whole chain is falsy when the message is absent. -/
def optHasNoSuchName : Option String → Bool
  | none => false
  | some m => strContainsSub m noSuchNameMarker

/-- One sub-series of an /api/query JSON response: its tag object and its
dps map from string timestamp to value. -/
structure Series where
  tags : List (String × String)
  dps : List (String × Int)
deriving DecidableEq

/-- Outcome of the HTTP GET issued by queryRange, as seen by its response
callback function(err, res):
transport is a truthy err with no usable res; httpError is a non-2xx res,
carrying res.error.status, res.error.message and, when the whole chain
res.body.error.message is present, that body message; success carries
res.body, which is missing (falsy) or a parsed array of sub-series. -/
inductive QueryRes where
  | transport (errMsg : String)
  | httpError (status : Nat) (resMsg : String) (bodyMsg : Option String)
  | success (body : Option (List Series))
deriving DecidableEq

/-- Error-handling core of queryRange(metric, filter, callback): a 400, or a
500 whose body message contains the no-such-name marker, is normalized to
callback(null, ARRAY-EMPTY); any other err or res.error yields
callback(new TsdbError(err or res.error.message)); on success the parsed
body (or an empty array when res.body is falsy) is passed through. -/
def queryRangeOutcome : QueryRes → Except String (List Series)
  | .transport e => .error e
  | .httpError st resMsg bodyMsg =>
    if st == 400 || (st == 500 && optHasNoSuchName bodyMsg) then .ok []
    else .error resMsg
  | .success none => .ok []
  | .success (some body) => .ok body

/-- getTimeSeriesRange(metric, filter, callback): runs queryRange and, when
there is no error and the body holds exactly one sub-series, converts its dps;
in every other non-error case it completes with an empty array. -/
def getTimeSeriesRange (r : QueryRes) : Except String (List MetricPoint) :=
  match queryRangeOutcome r with
  | .error e => .error e
  | .ok [s] => .ok (responseToLines s.dps)
  | .ok _ => .ok []

/-- JS member read tags[k] on a tag object. -/
def jsGet : List (String × String) → String → Option String
  | [], _ => none
  | p :: rest, k => if p.1 = k then some p.2 else jsGet rest k

/-- JS member write m[k] = v on an object: replace the value in place when the
key exists, append the property otherwise. -/
def jsSet {α : Type} : List (String × α) → String → α → List (String × α)
  | [], k, v => [(k, v)]
  | p :: rest, k, v => if p.1 = k then (k, v) :: rest else p :: jsSet rest k v

/-- Is the JS expression filter.tags[group] falsy?  It is when the property is
absent (undefined) or the empty string. -/
def jsFalsyStr : Option String → Bool
  | none => true
  | some s => s = ""

/-- Tag-defaulting prologue of getTimeSeriesRangeList: an absent filter.tags
becomes an empty object, and a falsy filter.tags[group] is set to the
wildcard. -/
def effectiveTags (ftags : Option (List (String × String))) (group : String) :
    List (String × String) :=
  let t := ftags.getD []
  if jsFalsyStr (jsGet t group) then jsSet t group "*" else t

/-- The query queryRange issues, as far as the grouped claims inspect it: the
metric name and the tag object placed in the m= clause of the request URI
(start, end, aggregation and qualifiers are copied into the URI unchanged and
are not inspected by any claim). -/
structure TsdbQuery where
  metric : String
  tags : List (String × String)
deriving DecidableEq

/-- The key series.tags[group] under which a returned sub-series is stored;
when the sub-series lacks the group tag, JS coerces the undefined key to the
property name "undefined". -/
def groupKeyOf (group : String) (s : Series) : String :=
  (jsGet s.tags group).getD "undefined"

/-- getTimeSeriesRangeList(metric, filter, group, callback): defaults the group
tag to a wildcard, issues one queryRange, and on success folds the returned
sub-series into an object keyed by each sub-series' group-tag value; on error
the callback receives the error together with the empty object.  The pair holds
the queries issued (always exactly the one) and the completion value. -/
def getTimeSeriesRangeList (metric : String)
    (ftags : Option (List (String × String))) (group : String) (r : QueryRes) :
    List TsdbQuery × Except String (List (String × List MetricPoint)) :=
  let t := effectiveTags ftags group
  let outcome : Except String (List (String × List MetricPoint)) :=
    match queryRangeOutcome r with
    | .error e => .error e
    | .ok body =>
      .ok (body.foldl (fun m s => jsSet m (groupKeyOf group s) (responseToLines s.dps)) [])
  ([{ metric := metric, tags := t }], outcome)

/-- First element of the /api/query/last JSON response body: a timestamp in
milliseconds and a value. -/
structure LastPoint where
  timestamp : Nat
  value : Int
deriving DecidableEq

/-- Outcome of the HTTP GET issued by getLatestTimeSeries, shaped like
QueryRes but with the last-point body. -/
inductive LastRes where
  | transport (errMsg : String)
  | httpError (status : Nat) (resMsg : String) (bodyMsg : Option String)
  | success (body : List LastPoint)
deriving DecidableEq

/-- A JS value that is either a number or a string; the timestamp field built
by getLatestTimeSeries is a toFixed result and hence a string. -/
inductive JsVal where
  | num (n : Int)
  | str (s : String)
deriving DecidableEq

/-- Completion of getLatestTimeSeries as seen by its caller: an error, a bare
callback() with no arguments, or callback(null, point). -/
inductive LastOutcome where
  | err (e : String)
  | noData
  | point (timestamp : JsVal) (value : Int)
deriving DecidableEq

/-- Number(ms / 1000).toFixed(0) for a nonnegative integer millisecond
timestamp: IEEE double division by 1000 followed by rounding to the nearest
integer (ties away from zero) and decimal formatting.  Both ms and ms / 1000
are exact doubles for every timestamp below 2 to the 53rd, so the result is
the decimal numeral of the rounded quotient. -/
def msToSecStr (ms : Nat) : String := toString ((ms + 500) / 1000)

/-- getLatestTimeSeries(metric, tags, callback): normalizes a 400 or 500 only
when the body message carries the no-such-name marker (note the conjunction:
unlike queryRange, a 400 without the marker is an error); on success maps the
first body element, building the timestamp with toFixed(0), which yields a
string. -/
def getLatestTimeSeries : LastRes → LastOutcome
  | .transport e => .err e
  | .httpError st resMsg bodyMsg =>
    if (st == 400 || st == 500) && optHasNoSuchName bodyMsg then .noData
    else .err resMsg
  | .success body =>
    match body.head? with
    | some p => .point (.str (msToSecStr p.timestamp)) p.value
    | none => .noData

/-- State of the module-level socket opentsdb: absent (undefined) or a socket
with its writable flag. -/
structure SocketSt where
  writable : Bool
deriving DecidableEq

/-- The guard addTimeSeries uses before writing: the JS test
not opentsdb or not opentsdb.writable. -/
def needReconnect : Option SocketSt → Bool
  | none => true
  | some s => !s.writable

/-- How one call of connect(nconf, callback) can unfold: the net connection is
established; or the socket emits an error before establishment; or
net.createConnection throws synchronously. -/
inductive ConnAttempt where
  | ok
  | errEvent (msg : String)
  | thrown (msg : String)
deriving DecidableEq

/-- Observable effects of one connect(nconf, callback) call: whether
process.exit(1) ran, how often the statsd counter opentsdb.failure was
incremented, the err arguments of every callback invocation in order, and the
resulting module-level socket. -/
structure ConnectRun where
  exited : Bool
  failureCount : Nat
  cbCalls : List (Option String)
  conn : Option SocketSt
deriving DecidableEq

/-- connect(nconf, callback): on establishment it stores the socket in the
module variable, rewires the error listener and calls callback(null, socket);
both failure paths run connectionError, which increments opentsdb.failure,
logs fatally and calls process.exit(1) - the callback is never invoked on
failure and no retry is attempted. -/
def connect : ConnAttempt → ConnectRun
  | .ok =>
    { exited := false, failureCount := 0, cbCalls := [none]
      conn := some { writable := true } }
  | .errEvent _ => { exited := true, failureCount := 1, cbCalls := [], conn := none }
  | .thrown _ => { exited := true, failureCount := 1, cbCalls := [], conn := none }

/-- Behavior of the underlying socket for one put line: whether
socket.write(data, encoding, callback) returns true (flushed right away) or
false (queued, kernel buffer full), and the err argument the transport later
passes to that write callback when the data is finally written out. -/
structure WriteBehavior where
  flushed : Bool
  flushErr : Option String
deriving DecidableEq

/-- Observable effects of one addTimeSeries(metric, callback) call: whether the
process exited (inside a failed reconnect), the statsd counter
opentsdb.write.delayed, how many connect calls were made, and the argument the
caller's callback eventually receives (none when it is never invoked). -/
structure AddRun where
  exited : Bool
  delayedCount : Nat
  connectCalls : Nat
  callerCb : Option (Option String)
deriving DecidableEq

/-- The inner sendTimeSeries(err) closure of addTimeSeries: a connect error
would be forwarded to the caller (dead in practice, since connect exits
instead); otherwise the put line is written, the caller's callback being handed
to socket.write, and a delayed-write warning is recorded when the socket
buffer was full. -/
def sendTimeSeries (wb : WriteBehavior) (err : Option String) (base : AddRun) : AddRun :=
  match err with
  | some e => { base with callerCb := some (some e) }
  | none =>
    if wb.flushed then { base with callerCb := some wb.flushErr }
    else { base with callerCb := some wb.flushErr, delayedCount := base.delayedCount + 1 }

/-- addTimeSeries(metric, callback): reconnects first when the module socket is
absent or unwritable, then sends; a failed reconnect exits the process before
any callback fires. -/
def addTimeSeries (conn : Option SocketSt) (a : ConnAttempt) (wb : WriteBehavior) : AddRun :=
  let base : AddRun := { exited := false, delayedCount := 0, connectCalls := 0, callerCb := none }
  if needReconnect conn then
    let c := connect a
    if c.exited then { base with exited := true, connectCalls := 1 }
    else sendTimeSeries wb none { base with connectCalls := 1 }
  else sendTimeSeries wb none base

/-- Events on the single-threaded event loop that touch the module connection
state: an addTimeSeries call arriving, and a pending connect completing (only
connectionEstablished assigns the module variable opentsdb; until it runs,
every arriving write still sees the connection as down). -/
inductive FacadeEv where
  | writeReq
  | connEstablished
deriving DecidableEq

/-- Module-level state relevant to reconnect counting: the socket variable and
how many connect calls have been made. -/
structure FacadeSt where
  conn : Option SocketSt
  connectCalls : Nat
deriving DecidableEq

/-- One event-loop step: an arriving write runs the addTimeSeries guard and
calls connect when the socket is absent or unwritable (nothing marks a
reconnect as already in flight); a completing connect stores a writable
socket. -/
def facadeStep (s : FacadeSt) : FacadeEv → FacadeSt
  | .writeReq =>
    if needReconnect s.conn then { s with connectCalls := s.connectCalls + 1 }
    else s
  | .connEstablished => { s with conn := some { writable := true } }

/-- Run a sequence of event-loop events. -/
def facadeRun (s : FacadeSt) (evs : List FacadeEv) : FacadeSt :=
  evs.foldl facadeStep s

end Opentsdb

open Opentsdb

/-- Claim C1, counterexample: on the raw point map with keys "100" and "20",
responseToLines sorts the keys lexicographically, so it returns the point with
timestamp 100 first — not the numerically ascending order the claim states. -/
theorem C1_counterexample :
    responseToLines [("100", 5), ("20", 3)] =
      [{ timestamp := 100, value := 5 }, { timestamp := 20, value := 3 }] ∧
    responseToLines [("100", 5), ("20", 3)] ≠
      [{ timestamp := 20, value := 3 }, { timestamp := 100, value := 5 }] := by
  constructor
  · rfl
  · decide

/-- Claim C2, counterexample: a 400 response whose body message lacks the
no-such-name marker is normalized to success-empty by queryRange but reported
as an error by getLatestTimeSeries — the two policies are not the same. -/
theorem C2_counterexample :
    queryRangeOutcome (.httpError 400 "Bad Request" (some "boom")) = .ok [] ∧
    getLatestTimeSeries (.httpError 400 "Bad Request" (some "boom")) = .err "Bad Request" ∧
    getLatestTimeSeries (.httpError 400 "Bad Request" (some "boom")) ≠ .noData := by
  refine ⟨rfl, rfl, by decide⟩

/-- Claim C2, amended: getLatestTimeSeries normalizes a store error to the
bare no-result callback only when the status is 400 or 500 AND the body
message contains "No such name for "; on a 400 without that marker it reports
an error, while queryRange normalizes every 400. -/
theorem C2_amended (resMsg : String) (bodyMsg : Option String) :
    (∀ st : Nat, (st = 400 ∨ st = 500) → optHasNoSuchName bodyMsg = true →
      getLatestTimeSeries (.httpError st resMsg bodyMsg) = .noData ∧
      queryRangeOutcome (.httpError st resMsg bodyMsg) = .ok []) ∧
    (optHasNoSuchName bodyMsg = false →
      getLatestTimeSeries (.httpError 400 resMsg bodyMsg) = .err resMsg ∧
      queryRangeOutcome (.httpError 400 resMsg bodyMsg) = .ok []) := by
  constructor
  · rintro st (rfl | rfl) hm <;>
      exact ⟨by simp [getLatestTimeSeries, hm], by simp [queryRangeOutcome, hm]⟩
  · intro hm
    exact ⟨by simp [getLatestTimeSeries, hm], by simp [queryRangeOutcome]⟩

/-- Witness for C2_amended at concrete inputs. -/
theorem C2_amended_witness :
    (getLatestTimeSeries
        (.httpError 400 "Bad Request" (some "No such name for metrics: pow")) = .noData ∧
      queryRangeOutcome
        (.httpError 400 "Bad Request" (some "No such name for metrics: pow")) = .ok []) ∧
    (getLatestTimeSeries (.httpError 400 "Bad Request" (some "boom2")) = .err "Bad Request" ∧
      queryRangeOutcome (.httpError 400 "Bad Request" (some "boom2")) = .ok []) :=
  ⟨(C2_amended "Bad Request" _).1 400 (Or.inl rfl) (by decide),
   (C2_amended "Bad Request" _).2 (by decide)⟩

/-- Claim C3: the code contradicts its own documentation — the JSDoc of
getLatestTimeSeries declares the result timestamp a Number in seconds, and the
claim says the same, but the implementation builds it with
Number(point.timestamp / 1000).toFixed(0), which produces the decimal string
"1700000000", not the number 1700000000. -/
theorem C3_timestamp_is_string :
    getLatestTimeSeries (.success [{ timestamp := 1700000000000, value := 42 }]) =
      .point (JsVal.str "1700000000") 42 ∧
    JsVal.str "1700000000" ≠ JsVal.num 1700000000 := by
  exact ⟨rfl, by decide⟩

/-- Claim C4: when addTimeSeries finds the connection absent or unwritable and
the reconnect succeeds, a transport error handed to the write callback is
reported to the write's caller. -/
theorem C4_write_error_reported (conn : Option SocketSt) (wb : WriteBehavior) (e : String)
    (hdown : needReconnect conn = true) (herr : wb.flushErr = some e) :
    (addTimeSeries conn .ok wb).callerCb = some (some e) := by
  unfold addTimeSeries
  rw [hdown]
  by_cases hf : wb.flushed <;>
    simp [connect, sendTimeSeries, hf, herr]

/-- Witness for C4_write_error_reported at concrete inputs. -/
theorem C4_witness :
    (addTimeSeries none .ok { flushed := true, flushErr := some "EPIPE" }).callerCb =
      some (some "EPIPE") :=
  C4_write_error_reported none _ "EPIPE" (by decide) (by decide)

/-- Claim C5: getTimeSeriesRange completes with success-empty on a 400 and on
a 500 carrying the no-such-name marker; every transport failure and every
other non-success status is surfaced as an error. -/
theorem C5_error_normalization :
    (∀ resMsg bodyMsg, getTimeSeriesRange (.httpError 400 resMsg bodyMsg) = .ok []) ∧
    (∀ resMsg m, strContainsSub m noSuchNameMarker = true →
      getTimeSeriesRange (.httpError 500 resMsg (some m)) = .ok []) ∧
    (∀ e, getTimeSeriesRange (.transport e) = .error e) ∧
    (∀ st resMsg bodyMsg,
      (st == 400 || (st == 500 && optHasNoSuchName bodyMsg)) = false →
      getTimeSeriesRange (.httpError st resMsg bodyMsg) = .error resMsg) := by
  refine ⟨?_, ?_, ?_, ?_⟩
  · intro resMsg bodyMsg
    simp [getTimeSeriesRange, queryRangeOutcome]
  · intro resMsg m hm
    simp [getTimeSeriesRange, queryRangeOutcome, optHasNoSuchName, hm]
  · intro e
    rfl
  · intro st resMsg bodyMsg h
    simp [getTimeSeriesRange, queryRangeOutcome, h]

/-- Witness for C5_error_normalization at concrete inputs. -/
theorem C5_witness :
    getTimeSeriesRange (.httpError 400 "Bad Request" none) = .ok [] ∧
    getTimeSeriesRange (.httpError 500 "Internal Server Error"
      (some "No such name for metrics: pow")) = .ok [] ∧
    getTimeSeriesRange (.transport "connect ECONNREFUSED") =
      .error "connect ECONNREFUSED" ∧
    getTimeSeriesRange (.httpError 404 "Not Found" none) = .error "Not Found" :=
  ⟨C5_error_normalization.1 _ _,
   C5_error_normalization.2.1 _ _ (by decide),
   C5_error_normalization.2.2.1 _,
   C5_error_normalization.2.2.2 404 _ _ (by decide)⟩

/-- Claim C7: a write over an open writable connection whose socket buffer is
full (socket.write returns false) does not surface an error from the enqueue
— the caller still sees a clean completion once the transport flushes — and
the delayed-write counter is bumped instead. -/
theorem C7_backpressure (conn : Option SocketSt) (a : ConnAttempt) (wb : WriteBehavior)
    (hopen : needReconnect conn = false) (hfull : wb.flushed = false) :
    (addTimeSeries conn a wb).delayedCount = 1 ∧
    (addTimeSeries conn a wb).exited = false ∧
    (wb.flushErr = none → (addTimeSeries conn a wb).callerCb = some none) := by
  unfold addTimeSeries
  rw [hopen]
  refine ⟨by simp [sendTimeSeries, hfull], by simp [sendTimeSeries, hfull], ?_⟩
  intro hnone
  simp [sendTimeSeries, hfull, hnone]

/-- Witness for C7_backpressure at concrete inputs. -/
theorem C7_witness :
    (addTimeSeries (some { writable := true }) .ok
      { flushed := false, flushErr := none }).delayedCount = 1 ∧
    (addTimeSeries (some { writable := true }) .ok
      { flushed := false, flushErr := none }).exited = false ∧
    ((none : Option String) = none →
      (addTimeSeries (some { writable := true }) .ok
        { flushed := false, flushErr := none }).callerCb = some none) :=
  C7_backpressure (some { writable := true }) .ok
    { flushed := false, flushErr := none } (by decide) (by decide)

/-- Claim C8: every failing connect invocation terminates the owning process:
both failure paths run connectionError, which exits, never invokes the
caller's callback, and performs no retry (a single statsd failure increment,
an empty callback trace). -/
theorem C8_connect_failure_fatal (a : ConnAttempt) (h : a ≠ .ok) :
    (connect a).exited = true ∧ (connect a).cbCalls = [] ∧
    (connect a).failureCount = 1 := by
  cases a with
  | ok => exact absurd rfl h
  | errEvent m => exact ⟨rfl, rfl, rfl⟩
  | thrown m => exact ⟨rfl, rfl, rfl⟩

/-- Witness for C8_connect_failure_fatal at a concrete input. -/
theorem C8_witness :
    (connect (.errEvent "connect ECONNREFUSED 127.0.0.1:4242")).exited = true ∧
    (connect (.errEvent "connect ECONNREFUSED 127.0.0.1:4242")).cbCalls = [] ∧
    (connect (.errEvent "connect ECONNREFUSED 127.0.0.1:4242")).failureCount = 1 :=
  C8_connect_failure_fatal _ (by decide)

/-- Claim C9, counterexample: two writes arriving while the connection is down
and before the first reconnect completes each pass the addTimeSeries guard and
each call connect — two reconnect attempts, not the single serialized one the
claim states. -/
theorem C9_counterexample :
    (facadeRun { conn := none, connectCalls := 0 }
      [.writeReq, .writeReq, .connEstablished]).connectCalls = 2 ∧ (2 : Nat) ≠ 1 := by
  exact ⟨rfl, by decide⟩

/-- Every write arriving while the module socket is absent increments the
connect count by one, because nothing records a reconnect in flight. -/
theorem facadeRun_replicate_writes (n : Nat) (c : Nat) :
    facadeRun { conn := none, connectCalls := c } (List.replicate n .writeReq) =
      { conn := none, connectCalls := c + n } := by
  induction n generalizing c with
  | zero => rfl
  | succ k ih =>
    rw [List.replicate_succ]
    show facadeRun (facadeStep { conn := none, connectCalls := c } .writeReq)
      (List.replicate k .writeReq) = _
    have hstep : facadeStep { conn := none, connectCalls := c } .writeReq =
        { conn := none, connectCalls := c + 1 } := rfl
    rw [hstep, ih]
    congr 1
    omega

/-- Claim C9, amended: reconnects are not serialized — n concurrent writes
issued while the connection is down, before any reconnect completes, trigger n
connect calls, one per write. -/
theorem C9_amended (n : Nat) :
    (facadeRun { conn := none, connectCalls := 0 }
      (List.replicate n .writeReq)).connectCalls = n := by
  rw [facadeRun_replicate_writes]
  simp

/-- Claim C10: a successful store response yields a non-empty point sequence
only when the body holds exactly one sub-series; zero or several sub-series
complete with an empty sequence and no error, discarding any returned data. -/
theorem C10_single_series_only (body : List Series) :
    (body.length ≠ 1 → getTimeSeriesRange (.success (some body)) = .ok []) ∧
    (∀ pts, getTimeSeriesRange (.success (some body)) = .ok pts → pts ≠ [] →
      body.length = 1) := by
  constructor
  · intro h
    cases body with
    | nil => rfl
    | cons s rest =>
      cases rest with
      | nil => exact absurd rfl h
      | cons s2 r2 => rfl
  · intro pts hok hne
    cases body with
    | nil =>
      simp [getTimeSeriesRange, queryRangeOutcome] at hok
      exact absurd hok hne
    | cons s rest =>
      cases rest with
      | nil => rfl
      | cons s2 r2 =>
        simp [getTimeSeriesRange, queryRangeOutcome] at hok
        exact absurd hok hne

/-- Witness for C10_single_series_only at a concrete two-series response. -/
theorem C10_witness :
    getTimeSeriesRange (.success (some
      [{ tags := [], dps := [] }, { tags := [], dps := [] }])) = .ok [] :=
  (C10_single_series_only _).1 (by decide)

/-- A decimal digit character has code point between 48 and 57. -/
theorem isDigit_bounds {c : Char} (h : c.isDigit = true) :
    48 ≤ c.toNat ∧ c.toNat ≤ 57 := by
  simp only [Char.isDigit, Char.le_def, UInt32.le_def, BitVec.le_def,
    decide_eq_true_eq, Bool.and_eq_true] at h
  simp only [Char.toNat, UInt32.toNat]
  have h48 : ((48 : UInt32)).toBitVec.toNat = 48 := rfl
  have h57 : ((57 : UInt32)).toBitVec.toNat = 57 := rfl
  omega

/-- The character order is the order of code points. -/
theorem char_lt_iff_toNat (a b : Char) : a < b ↔ a.toNat < b.toNat := Iff.rfl

/-- A w-digit numeral is below 10 to the w. -/
theorem natOfDigits_lt_pow {l : List Char} (h : l.all Char.isDigit = true) :
    natOfDigits l < 10 ^ l.length := by
  induction l with
  | nil => simp [natOfDigits]
  | cons c cs ih =>
    simp only [List.all_cons, Bool.and_eq_true] at h
    have hc := isDigit_bounds h.1
    have hcs := ih h.2
    have hdv : digitVal c ≤ 9 := by unfold digitVal; omega
    have hmul : digitVal c * 10 ^ cs.length ≤ 9 * 10 ^ cs.length :=
      Nat.mul_le_mul_right _ hdv
    have hpow : 10 ^ (c :: cs).length = 10 * 10 ^ cs.length := by
      simp [List.length_cons, pow_succ, Nat.mul_comm]
    show digitVal c * 10 ^ cs.length + natOfDigits cs < 10 ^ (c :: cs).length
    rw [hpow]
    omega

/-- On distinct digit strings of equal width, the lexicographic string order
implies the numeric order of their values: positional comparison. -/
theorem natOfDigits_lt_of_lexLt :
    ∀ {a b : List Char}, lexLeb a b = true → a ≠ b → a.length = b.length →
      a.all Char.isDigit = true → b.all Char.isDigit = true →
      natOfDigits a < natOfDigits b := by
  intro a
  induction a with
  | nil =>
    intro b _ hne hlen _ _
    cases b with
    | nil => exact absurd rfl hne
    | cons y ys => simp at hlen
  | cons x xs ih =>
    intro b hle hne hlen hda hdb
    cases b with
    | nil => simp [lexLeb] at hle
    | cons y ys =>
      simp only [List.all_cons, Bool.and_eq_true] at hda hdb
      replace hlen : xs.length = ys.length := by
        simpa using hlen
      by_cases hxy : x < y
      · have h1 : digitVal x < digitVal y := by
          have hx := isDigit_bounds hda.1
          have hy := isDigit_bounds hdb.1
          have hlt := (char_lt_iff_toNat x y).mp hxy
          unfold digitVal
          omega
        have h2 : natOfDigits xs < 10 ^ xs.length := natOfDigits_lt_pow hda.2
        have h3 : (digitVal x + 1) * 10 ^ xs.length ≤ digitVal y * 10 ^ xs.length :=
          Nat.mul_le_mul_right _ h1
        have h4 : (digitVal x + 1) * 10 ^ xs.length =
            digitVal x * 10 ^ xs.length + 10 ^ xs.length := by ring
        show digitVal x * 10 ^ xs.length + natOfDigits xs <
          digitVal y * 10 ^ ys.length + natOfDigits ys
        rw [← hlen]
        omega
      · by_cases hyx : y < x
        · simp [lexLeb, hxy, hyx] at hle
        · have hxyeq : x = y := le_antisymm (not_lt.mp hyx) (not_lt.mp hxy)
          subst hxyeq
          simp only [lexLeb, lt_irrefl, if_false] at hle
          have hne2 : xs ≠ ys := fun h => hne (by rw [h])
          have hrec := ih hle hne2 hlen hda.2 hdb.2
          show digitVal x * 10 ^ xs.length + natOfDigits xs <
            digitVal x * 10 ^ ys.length + natOfDigits ys
          rw [← hlen]
          omega

/-- leadDigits consumes an all-digit list whole. -/
theorem leadDigits_all {l : List Char} (h : l.all Char.isDigit = true) :
    leadDigits l = l := by
  induction l with
  | nil => rfl
  | cons c cs ih =>
    simp only [List.all_cons, Bool.and_eq_true] at h
    simp [leadDigits, h.1, ih h.2]

/-- On a nonempty all-digit string, jsParseInt is the numeral value. -/
theorem jsParseInt_digits {s : String} (hne : s.data ≠ [])
    (h : s.data.all Char.isDigit = true) :
    jsParseInt s = (natOfDigits s.data : Int) := by
  cases hd : s.data with
  | nil => exact absurd hd hne
  | cons c cs =>
    rw [hd] at h
    simp only [List.all_cons, Bool.and_eq_true] at h
    have hc : ¬ c = '-' := by
      intro hc
      subst hc
      have hb := isDigit_bounds h.1
      have h45 : ('-').toNat = 45 := rfl
      omega
    simp only [jsParseInt, hd, hc, if_false]
    rw [leadDigits_all (show (c :: cs).all Char.isDigit = true by simp [h.1, h.2])]

/-- On an object with pairwise-distinct keys, the member read returns the
stored value. -/
theorem jsLookup_eq : ∀ (dps : List (String × Int)) (k : String) (v : Int),
    (dps.map Prod.fst).Nodup → (k, v) ∈ dps → jsLookup dps k = v := by
  intro dps
  induction dps with
  | nil => intro k v _ h; simp at h
  | cons p rest ih =>
    intro k v hnd hmem
    simp only [List.map_cons, List.nodup_cons] at hnd
    rcases List.mem_cons.mp hmem with h | h
    · rw [← h]
      simp [jsLookup]
    · have hkp : ¬ p.1 = k := by
        intro he
        exact hnd.1 (he ▸ List.mem_map.mpr ⟨(k, v), h, rfl⟩)
      simp only [jsLookup, hkp, if_false]
      exact ih k v hnd.2 h

/-- Claim C1, amended: responseToLines sorts the dps keys as strings, which is
lexicographic; because all timestamps in one OpenTSDB response are decimal
digit strings of one shared width, that string sort coincides with the numeric
sort, and the output is then strictly ascending in timestamp and enumerates
exactly the parsed entries of the map. -/
theorem C1_amended (dps : List (String × Int)) (w : Nat) (hw : 0 < w)
    (hdig : ∀ p ∈ dps, p.1.data.all Char.isDigit = true)
    (hwidth : ∀ p ∈ dps, p.1.data.length = w)
    (hnd : (dps.map Prod.fst).Nodup) :
    (responseToLines dps).Pairwise (fun p q => p.timestamp < q.timestamp) ∧
    List.Perm (responseToLines dps)
      (dps.map fun p => { timestamp := jsParseInt p.1, value := p.2 }) := by
  have hperm : List.Perm (List.insertionSort jsLe (dps.map Prod.fst)) (dps.map Prod.fst) :=
    List.perm_insertionSort jsLe (dps.map Prod.fst)
  have hsorted : (List.insertionSort jsLe (dps.map Prod.fst)).Pairwise jsLe :=
    List.sorted_insertionSort jsLe (dps.map Prod.fst)
  have hnd2 : (List.insertionSort jsLe (dps.map Prod.fst)).Nodup :=
    hperm.nodup_iff.mpr hnd
  have hmem : ∀ k ∈ List.insertionSort jsLe (dps.map Prod.fst),
      k.data.all Char.isDigit = true ∧ k.data.length = w := by
    intro k hk
    have hk2 : k ∈ dps.map Prod.fst := hperm.mem_iff.mp hk
    rcases List.mem_map.mp hk2 with ⟨p, hp, rfl⟩
    exact ⟨hdig p hp, hwidth p hp⟩
  constructor
  · unfold responseToLines
    rw [List.pairwise_map]
    refine List.Pairwise.imp_of_mem ?_ (hsorted.and hnd2)
    intro a b ha hb hab
    obtain ⟨hda, hwa⟩ := hmem a ha
    obtain ⟨hdb, hwb⟩ := hmem b hb
    have hane : a.data ≠ [] := by
      intro h0
      rw [h0] at hwa
      simp at hwa
      omega
    have hbne : b.data ≠ [] := by
      intro h0
      rw [h0] at hwb
      simp at hwb
      omega
    show jsParseInt a < jsParseInt b
    rw [jsParseInt_digits hane hda, jsParseInt_digits hbne hdb]
    have hdne : a.data ≠ b.data := fun h =>
      hab.2 (String.toList_inj.mp h)
    exact_mod_cast natOfDigits_lt_of_lexLt hab.1 hdne (hwa.trans hwb.symm) hda hdb
  · unfold responseToLines
    have hmapeq : (dps.map Prod.fst).map
        (fun key => ({ timestamp := jsParseInt key, value := jsLookup dps key } :
          MetricPoint)) =
        dps.map fun p => { timestamp := jsParseInt p.1, value := p.2 } := by
      rw [List.map_map]
      apply List.map_congr_left
      intro p hp
      simp only [Function.comp_apply]
      rw [jsLookup_eq dps p.1 p.2 hnd (by simpa using hp)]
    exact hmapeq ▸ hperm.map _

/-- Witness for C1_amended at a concrete equal-width dps map. -/
theorem C1_amended_witness :
    (responseToLines [("30", 7), ("12", 1)]).Pairwise
      (fun p q => p.timestamp < q.timestamp) ∧
    List.Perm (responseToLines [("30", 7), ("12", 1)])
      ([("30", (7 : Int)), ("12", 1)].map fun p =>
        { timestamp := jsParseInt p.1, value := p.2 }) :=
  C1_amended [("30", 7), ("12", 1)] 2 (by decide) (by decide) (by decide) (by decide)

/-- Reading back the key just written by a JS member write. -/
theorem jsGet_jsSet (m : List (String × String)) (k : String) (v : String) :
    jsGet (jsSet m k v) k = some v := by
  induction m with
  | nil => simp [jsSet, jsGet]
  | cons p rest ih =>
    by_cases h : p.1 = k
    · simp [jsSet, h, jsGet]
    · simp [jsSet, h, jsGet, ih]

/-- Writing a fresh key appends the property. -/
theorem jsSet_append {α : Type} (m : List (String × α)) (k : String) (v : α)
    (h : k ∉ m.map Prod.fst) : jsSet m k v = m ++ [(k, v)] := by
  induction m with
  | nil => rfl
  | cons p rest ih =>
    simp only [List.map_cons, List.mem_cons, not_or] at h
    have hp : ¬ p.1 = k := fun he => h.1 he.symm
    simp [jsSet, hp, ih h.2]

/-- Folding JS member writes with pairwise-distinct fresh keys just appends
the properties in order. -/
theorem foldl_jsSet_map {α : Type} (f : Series → String) (g : Series → α) :
    ∀ (body : List Series) (acc : List (String × α)),
      (body.map f).Nodup → (∀ s ∈ body, f s ∉ acc.map Prod.fst) →
      body.foldl (fun m s => jsSet m (f s) (g s)) acc =
        acc ++ body.map (fun s => (f s, g s)) := by
  intro body
  induction body with
  | nil => intro acc _ _; simp
  | cons s rest ih =>
    intro acc hnd hdisj
    simp only [List.map_cons, List.nodup_cons] at hnd
    show rest.foldl (fun m t => jsSet m (f t) (g t)) (jsSet acc (f s) (g s)) = _
    rw [jsSet_append acc (f s) (g s) (hdisj s (List.mem_cons_self s rest))]
    have hdisj2 : ∀ t ∈ rest, f t ∉ (acc ++ [(f s, g s)]).map Prod.fst := by
      intro t ht
      simp only [List.map_append, List.mem_append, List.map_cons, List.map_nil,
        List.mem_singleton, not_or]
      refine ⟨hdisj t (List.mem_cons_of_mem s ht), ?_⟩
      intro he
      exact hnd.1 (List.mem_map.mpr ⟨t, ht, he⟩)
    rw [ih (acc ++ [(f s, g s)]) hnd.2 hdisj2]
    simp

/-- Claim C6: when the filter lacks a value for the group tag (also when the
whole tags object is absent), getTimeSeriesRangeList injects the wildcard
value for that tag, issues exactly one query, and on success returns the
object mapping each observed group-tag value to the converted points of its
sub-series (stated under per-sub-series distinct group values, the shape a
grouped wildcard query returns). -/
theorem C6_grouped_wildcard (metric group : String)
    (ftags : Option (List (String × String))) (body : List Series)
    (hunset : jsGet (ftags.getD []) group = none)
    (hnd : (body.map (groupKeyOf group)).Nodup) :
    (getTimeSeriesRangeList metric ftags group (.success (some body))).1.length = 1 ∧
    (∀ q ∈ (getTimeSeriesRangeList metric ftags group (.success (some body))).1,
      q.metric = metric ∧ jsGet q.tags group = some "*") ∧
    (getTimeSeriesRangeList metric ftags group (.success (some body))).2 =
      .ok (body.map fun s => (groupKeyOf group s, responseToLines s.dps)) := by
  have htags : effectiveTags ftags group = jsSet (ftags.getD []) group "*" := by
    unfold effectiveTags
    simp [hunset, jsFalsyStr]
  refine ⟨rfl, ?_, ?_⟩
  · intro q hq
    simp only [getTimeSeriesRangeList, List.mem_singleton] at hq
    subst hq
    refine ⟨rfl, ?_⟩
    show jsGet (effectiveTags ftags group) group = some "*"
    rw [htags]
    exact jsGet_jsSet (ftags.getD []) group "*"
  · show (getTimeSeriesRangeList metric ftags group (.success (some body))).2 = _
    simp only [getTimeSeriesRangeList, queryRangeOutcome]
    rw [foldl_jsSet_map (groupKeyOf group) (fun s => responseToLines s.dps) body []
      hnd (by intro s _; simp)]
    simp

/-- Witness for C6_grouped_wildcard at a concrete grouped response. -/
theorem C6_witness :
    (getTimeSeriesRangeList "power" none "hpc"
      (.success (some [{ tags := [("hpc", "a")], dps := [] }]))).1.length = 1 ∧
    (∀ q ∈ (getTimeSeriesRangeList "power" none "hpc"
      (.success (some [{ tags := [("hpc", "a")], dps := [] }]))).1,
      q.metric = "power" ∧ jsGet q.tags "hpc" = some "*") ∧
    (getTimeSeriesRangeList "power" none "hpc"
      (.success (some [{ tags := [("hpc", "a")], dps := [] }]))).2 =
      .ok ([{ tags := [("hpc", "a")], dps := [] }].map fun s =>
        (groupKeyOf "hpc" s, responseToLines s.dps)) :=
  C6_grouped_wildcard "power" "hpc" none _ (by decide) (by decide)
